import Mathlib

/-!
Verification of the list-generation pipeline of the StyleTTS2_Arabic repository.

The development embeds the functions of src/generate_TTS2_lists.py:

- the Selector (select_balanced_by_gender, lines 59 to 111),
- the Manifest Writer (write_list_file, lines 36 to 57),
- the startup checks of main (lines 139 to 170).

A metadata row is a record with the columns the scripts use; durations are
modelled as rationals (the Python floats carry exact small decimal values in
all the behaviour under scrutiny, and none of the claims concerns rounding).
The seeded pandas shuffle (sample with random_state 42) is a deterministic
function of its input; it is modelled as an explicit function parameter
shuffle, and theorems that need the fact that a shuffle only reorders its
input take the hypothesis that shuffle l is a permutation of l.
pandas sort_values is modelled by insertion sort on the duration key.
-/

namespace StyleTTS2

/-- One row of the metadata CSV, with the columns generate_TTS2_lists.py reads. -/
structure Row where
  file_path : String
  text : String
  split : String
  gender : String
  duration : ℚ
deriving DecidableEq

/-- ASCII lower-casing of one character, modelling Python str.lower on the
ASCII alphabet (the only characters the gender comparison is sensitive to). -/
def lowerChar (c : Char) : Char :=
  if 65 ≤ c.toNat ∧ c.toNat ≤ 90 then Char.ofNat (c.toNat + 32) else c

/-- The gender test of line 74: the lower-cased gender column equals g.
String equality is equality of the underlying character lists, so the test is
stated over those lists directly. -/
def genderMatches (g : String) (r : Row) : Bool :=
  r.gender.data.map lowerChar == g.data

/-- The subset of df matching gender g (line 74). -/
def filterGender (df : List Row) (g : String) : List Row :=
  df.filter (genderMatches g)

/-- Sum of the duration column (line 79). -/
def totalDuration (l : List Row) : ℚ := (l.map Row.duration).sum

/-- Ascending comparison on the duration column. -/
def durAsc (a b : Row) : Prop := a.duration ≤ b.duration

/-- Descending comparison on the duration column. -/
def durDesc (a b : Row) : Prop := b.duration ≤ a.duration

instance : DecidableRel durAsc :=
  fun a b => inferInstanceAs (Decidable (a.duration ≤ b.duration))

instance : DecidableRel durDesc :=
  fun a b => inferInstanceAs (Decidable (b.duration ≤ a.duration))

instance : IsTotal Row durAsc := ⟨fun a b => le_total a.duration b.duration⟩

instance : IsTrans Row durAsc := ⟨fun _ _ _ h₁ h₂ => le_trans h₁ h₂⟩

instance : IsTotal Row durDesc := ⟨fun a b => le_total b.duration a.duration⟩

instance : IsTrans Row durDesc := ⟨fun _ _ _ h₁ h₂ => le_trans h₂ h₁⟩

/-- Reordering of lines 85 to 92: random shuffles (seeded pandas sample,
modelled by the shuffle parameter), min sorts ascending by duration,
max sorts descending by duration, and any other string falls back to the
shuffle (the else branch of line 91). -/
def orderRows (shuffle : List Row → List Row) (order : String) (l : List Row) :
    List Row :=
  if order = "random" then shuffle l
  else if order = "min" then List.insertionSort durAsc l
  else if order = "max" then List.insertionSort durDesc l
  else shuffle l

/-- The accumulation loop of lines 94 to 104: rows are appended in order and
the running duration sum is tracked; the loop stops right after the row that
makes the running sum reach the requirement. -/
def accumulate (required : ℚ) : ℚ → List Row → List Row
  | _, [] => []
  | cum, r :: rs =>
    if required ≤ cum + r.duration then [r]
    else r :: accumulate required (cum + r.duration) rs

/-- The per-gender body of the loop of lines 73 to 106: skip an empty gender
subset, select the whole subset when its total duration is below the
requirement target over two (line 70), and otherwise accumulate rows in the
configured order until the requirement is crossed. -/
def selectGender (shuffle : List Row → List Row) (target : ℚ) (order : String)
    (df : List Row) (g : String) : List Row :=
  if (filterGender df g).isEmpty then []
  else if totalDuration (filterGender df g) < target / 2 then filterGender df g
  else accumulate (target / 2) 0 (orderRows shuffle order (filterGender df g))

/-- select_balanced_by_gender, lines 59 to 111: the male selection followed by
the female selection; when both gender subsets are empty the selected_rows
list stays empty and the whole input frame is returned (line 111). -/
def select_balanced_by_gender (shuffle : List Row → List Row) (df : List Row)
    (target : ℚ) (order : String) : List Row :=
  if (filterGender df "male").isEmpty && (filterGender df "female").isEmpty then df
  else
    selectGender shuffle target order df "male" ++
      selectGender shuffle target order df "female"

/-- The characters after the last slash of a path, modelling
os.path.basename (line 53). -/
def basenameChars (p : List Char) : List Char :=
  (p.reverse.takeWhile (fun c => c != '/')).reverse

/-- Whether the second character list starts with the first. -/
def underRoot : List Char → List Char → Bool
  | [], _ => true
  | _ :: _, [] => false
  | a :: p, b :: l => a == b && underRoot p l

/-- The relative path computed at lines 48 to 53, modelling
os.path.relpath over absolute paths for the common case in which the file
lies under the root directory; any other outcome is modelled by the
basename fallback the except branch of line 52 uses. -/
def relPathChars (root fp : List Char) : List Char :=
  if underRoot (root ++ ['/']) fp then fp.drop (root.length + 1)
  else basenameChars fp

/-- Leading and trailing whitespace removal, modelling str.strip (line 55). -/
def trimChars (s : List Char) : List Char :=
  ((s.dropWhile Char.isWhitespace).reverse.dropWhile Char.isWhitespace).reverse

/-- The text of the output line of line 56: relative path, a pipe, and the
trimmed transcript. -/
def lineFor (root : String) (r : Row) : List Char :=
  relPathChars root.data r.file_path.data ++ '|' :: trimChars r.text.data

/-- The lines write_list_file emits (lines 42 to 56): one line per row, rows
with an empty file_path skipped by the continue of line 46. -/
def writeListLines (root : String) (rows : List Row) : List (List Char) :=
  rows.filterMap fun r =>
    if r.file_path = "" then none else some (lineFor root r)

/-- The count printed at line 57: the length of the data frame passed in,
whether or not some of its rows were skipped. -/
def writeListReport (rows : List Row) : Nat := rows.length

/-- Fields split at pipe characters, the reading a consumer of the manifest
applies to one emitted line. -/
def splitPipe : List Char → List (List Char)
  | [] => [[]]
  | c :: cs =>
    if c = '|' then [] :: splitPipe cs
    else
      match splitPipe cs with
      | [] => [[c]]
      | f :: rest => (c :: f) :: rest

/-- The command-line configuration of main (lines 117 to 136). -/
structure Config where
  root_path : String
  train_split : String
  val_split : String
  text_field : String
  target_duration : Option ℚ
  duration_order : String

/-- The metadata CSV as read at line 143: its column set and its rows. -/
structure Csv where
  columns : List String
  rows : List Row

/-- Outcome of a run of main: a fatal diagnostic followed by exit 1, or the
two manifests written. -/
inductive MainResult where
  | fatal (msg : String)
  | ok (trainLines valLines : List (List Char))

/-- main, lines 139 to 170: a missing file or a missing required column is
fatal before any output; otherwise the training subset is optionally
rebalanced and both manifests are produced. -/
def mainRun (shuffle : List Row → List Row) (csv : Option Csv) (cfg : Config) :
    MainResult :=
  match csv with
  | none => MainResult.fatal "Metadata CSV file not found."
  | some t =>
    if "file_path" ∉ t.columns then
      MainResult.fatal "Required column file_path not found in metadata."
    else if "split" ∉ t.columns then
      MainResult.fatal "Required column split not found in metadata."
    else if cfg.text_field ∉ t.columns then
      MainResult.fatal "Required text column not found in metadata."
    else
      MainResult.ok
        (writeListLines cfg.root_path
          (match cfg.target_duration with
           | none => t.rows.filter (fun r => r.split == cfg.train_split)
           | some target =>
             if "gender" ∈ t.columns ∧ "duration" ∈ t.columns then
               select_balanced_by_gender shuffle
                 (t.rows.filter (fun r => r.split == cfg.train_split)) target
                 cfg.duration_order
             else t.rows.filter (fun r => r.split == cfg.train_split)))
        (writeListLines cfg.root_path
          (t.rows.filter (fun r => r.split == cfg.val_split)))

@[simp] theorem totalDuration_nil : totalDuration [] = 0 := rfl

@[simp] theorem totalDuration_cons (r : Row) (l : List Row) :
    totalDuration (r :: l) = r.duration + totalDuration l := by
  simp [totalDuration]

@[simp] theorem totalDuration_append (l₁ l₂ : List Row) :
    totalDuration (l₁ ++ l₂) = totalDuration l₁ + totalDuration l₂ := by
  simp [totalDuration]

theorem totalDuration_perm {l₁ l₂ : List Row} (h : List.Perm l₁ l₂) :
    totalDuration l₁ = totalDuration l₂ :=
  (h.map Row.duration).sum_eq

theorem orderRows_perm (shuffle : List Row → List Row)
    (hsh : ∀ l, List.Perm (shuffle l) l) (order : String) (l : List Row) :
    List.Perm (orderRows shuffle order l) l := by
  unfold orderRows
  split_ifs
  · exact hsh l
  · exact List.perm_insertionSort durAsc l
  · exact List.perm_insertionSort durDesc l
  · exact hsh l

theorem orderRows_min (shuffle : List Row → List Row) (l : List Row) :
    orderRows shuffle "min" l = List.insertionSort durAsc l := by
  unfold orderRows
  rw [if_neg (by decide), if_pos rfl]

theorem orderRows_max (shuffle : List Row → List Row) (l : List Row) :
    orderRows shuffle "max" l = List.insertionSort durDesc l := by
  unfold orderRows
  rw [if_neg (by decide), if_neg (by decide), if_pos rfl]

/-- The accumulation loop takes a leading segment of its input. -/
theorem accumulate_append_rest (required cum : ℚ) (l : List Row) :
    ∃ rest, l = accumulate required cum l ++ rest := by
  induction l generalizing cum with
  | nil => exact ⟨[], rfl⟩
  | cons r rs ih =>
    by_cases h : required ≤ cum + r.duration
    · exact ⟨rs, by simp [accumulate, h]⟩
    · obtain ⟨rest, hrest⟩ := ih (cum + r.duration)
      exact ⟨rest, by simp only [accumulate, if_neg h, List.cons_append,
        List.cons.injEq, true_and]; exact hrest⟩

/-- If the whole input would reach the requirement, so does the accumulated
leading segment. -/
theorem accumulate_reaches (required cum : ℚ) (l : List Row)
    (h : required ≤ cum + totalDuration l) :
    required ≤ cum + totalDuration (accumulate required cum l) := by
  induction l generalizing cum with
  | nil =>
    simp only [accumulate, totalDuration_nil, add_zero] at h ⊢
    exact h
  | cons r rs ih =>
    by_cases hc : required ≤ cum + r.duration
    · simp [accumulate, hc]
    · have hih := ih (cum + r.duration) (by rw [totalDuration_cons] at h; linarith)
      rw [accumulate, if_neg hc, totalDuration_cons]
      linarith

/-- Before its final row, the accumulated segment is still short of the
requirement. -/
theorem accumulate_last (required : ℚ) (l : List Row) :
    ∀ cum : ℚ, l ≠ [] → cum < required →
      ∃ pre lastR, accumulate required cum l = pre ++ [lastR] ∧
        cum + totalDuration pre < required := by
  induction l with
  | nil => exact fun _ hne _ => absurd rfl hne
  | cons r rs ih =>
    intro cum _ hcum
    by_cases hc : required ≤ cum + r.duration
    · exact ⟨[], r, by rw [accumulate, if_pos hc]; rfl, by simpa using hcum⟩
    · push_neg at hc
      rcases rs with _ | ⟨r₂, rs₂⟩
      · exact ⟨[], r, by rw [accumulate, if_neg (not_le.mpr hc)]; rfl,
          by simpa using hcum⟩
      · obtain ⟨pre, lastR, heq, hpre⟩ := ih (cum + r.duration) (by simp) hc
        refine ⟨r :: pre, lastR, ?_, ?_⟩
        · rw [accumulate, if_neg (not_le.mpr hc), heq, List.cons_append]
        · rw [totalDuration_cons]; linarith

/-- A row cannot match both genders: lower-casing is a function and the two
gender words differ. -/
theorem genders_exclusive (r : Row) :
    ¬(genderMatches "male" r = true ∧ genderMatches "female" r = true) := by
  rintro ⟨h₁, h₂⟩
  unfold genderMatches at h₁ h₂
  rw [beq_iff_eq] at h₁ h₂
  rw [h₁] at h₂
  exact absurd h₂ (by decide)

/-- Every row the per-gender selection returns matches that gender. -/
theorem mem_selectGender (shuffle : List Row → List Row)
    (hsh : ∀ l, List.Perm (shuffle l) l) (target : ℚ) (order : String)
    (df : List Row) (g : String) {r : Row}
    (hr : r ∈ selectGender shuffle target order df g) :
    genderMatches g r = true := by
  unfold selectGender at hr
  by_cases h₁ : (filterGender df g).isEmpty
  · rw [if_pos h₁] at hr
    cases hr
  · rw [if_neg h₁] at hr
    by_cases h₂ : totalDuration (filterGender df g) < target / 2
    · rw [if_pos h₂] at hr
      exact (List.mem_filter.mp hr).2
    · rw [if_neg h₂] at hr
      obtain ⟨rest, hrest⟩ := accumulate_append_rest (target / 2) 0
        (orderRows shuffle order (filterGender df g))
      have hmem : r ∈ orderRows shuffle order (filterGender df g) := by
        rw [hrest]
        exact List.mem_append_left _ hr
      have : r ∈ filterGender df g :=
        ((orderRows_perm shuffle hsh order _).mem_iff).mp hmem
      exact (List.mem_filter.mp this).2

/-- The per-gender selection never uses a row more often than the gender
subset holds it. -/
theorem count_selectGender_le (shuffle : List Row → List Row)
    (hsh : ∀ l, List.Perm (shuffle l) l) (target : ℚ) (order : String)
    (df : List Row) (g : String) (a : Row) :
    (selectGender shuffle target order df g).count a ≤
      (filterGender df g).count a := by
  unfold selectGender
  by_cases h₁ : (filterGender df g).isEmpty
  · rw [if_pos h₁]
    simp
  · rw [if_neg h₁]
    by_cases h₂ : totalDuration (filterGender df g) < target / 2
    · rw [if_pos h₂]
    · rw [if_neg h₂]
      obtain ⟨rest, hrest⟩ := accumulate_append_rest (target / 2) 0
        (orderRows shuffle order (filterGender df g))
      have hsub := List.sublist_append_left
        (accumulate (target / 2) 0 (orderRows shuffle order (filterGender df g)))
        rest
      rw [← hrest] at hsub
      calc (accumulate (target / 2) 0
            (orderRows shuffle order (filterGender df g))).count a
          ≤ (orderRows shuffle order (filterGender df g)).count a :=
            hsub.count_le a
        _ = (filterGender df g).count a :=
            (orderRows_perm shuffle hsh order _).count_eq a

/-- Characters of the basename come from the path. -/
theorem mem_basenameChars {c : Char} {p : List Char}
    (h : c ∈ basenameChars p) : c ∈ p := by
  unfold basenameChars at h
  rw [List.mem_reverse] at h
  have h₂ := (List.takeWhile_sublist _).mem h
  rwa [List.mem_reverse] at h₂

/-- Characters of the computed relative path come from the file path. -/
theorem mem_relPathChars {c : Char} {root fp : List Char}
    (h : c ∈ relPathChars root fp) : c ∈ fp := by
  unfold relPathChars at h
  split_ifs at h
  · exact (List.drop_sublist _ _).mem h
  · exact mem_basenameChars h

/-- Characters of the trimmed transcript come from the transcript. -/
theorem mem_trimChars {c : Char} {s : List Char} (h : c ∈ trimChars s) :
    c ∈ s := by
  unfold trimChars at h
  rw [List.mem_reverse] at h
  have h₂ := (List.dropWhile_sublist _).mem h
  rw [List.mem_reverse] at h₂
  exact (List.dropWhile_sublist _).mem h₂

theorem splitPipe_no_pipe {l : List Char} (h : '|' ∉ l) : splitPipe l = [l] := by
  induction l with
  | nil => rfl
  | cons c cs ih =>
    have hc : ¬c = '|' := fun hh => h (by rw [hh]; exact List.mem_cons_self _ _)
    rw [splitPipe, if_neg hc, ih (fun hm => h (List.mem_cons_of_mem c hm))]

theorem splitPipe_append (l₂ : List Char) {l₁ : List Char} (h : '|' ∉ l₁) :
    splitPipe (l₁ ++ '|' :: l₂) = l₁ :: splitPipe l₂ := by
  induction l₁ with
  | nil => rw [List.nil_append, splitPipe, if_pos rfl]
  | cons c cs ih =>
    have hc : ¬c = '|' := fun hh => h (by rw [hh]; exact List.mem_cons_self _ _)
    rw [List.cons_append, splitPipe, if_neg hc,
      ih (fun hm => h (List.mem_cons_of_mem c hm))]

/-- A line whose two pieces hold no pipe splits into exactly those pieces. -/
theorem splitPipe_line {rel text : List Char} (h₁ : '|' ∉ rel)
    (h₂ : '|' ∉ text) : splitPipe (rel ++ '|' :: text) = [rel, text] := by
  rw [splitPipe_append text h₁, splitPipe_no_pipe h₂]

/-- The emitted lines are the kept rows mapped through the line layout. -/
theorem writeListLines_eq_map (root : String) (rows : List Row) :
    writeListLines root rows =
      (rows.filter (fun r => !(r.file_path == ""))).map (lineFor root) := by
  induction rows with
  | nil => rfl
  | cons r rs ih =>
    by_cases h : r.file_path = ""
    · simp [writeListLines, List.filterMap_cons, List.filter_cons, h] at ih ⊢
      exact ih
    · simp [writeListLines, List.filterMap_cons, List.filter_cons, h] at ih ⊢
      exact ih

/-- When a gender subset misses the requirement, the whole subset is its
selection (lines 80 to 83); an empty subset yields an empty selection. -/
theorem selectGender_insufficient (shuffle : List Row → List Row) (target : ℚ)
    (order : String) (df : List Row) (g : String)
    (hlt : totalDuration (filterGender df g) < target / 2) :
    selectGender shuffle target order df g = filterGender df g := by
  unfold selectGender
  by_cases h₁ : (filterGender df g).isEmpty
  · rw [if_pos h₁, List.isEmpty_iff.mp h₁]
  · rw [if_neg h₁, if_pos hlt]

/-- A per-gender selection is untouched by filtering for its own gender. -/
theorem filter_selectGender_self (shuffle : List Row → List Row)
    (hsh : ∀ l, List.Perm (shuffle l) l) (target : ℚ) (order : String)
    (df : List Row) (g : String) :
    (selectGender shuffle target order df g).filter (genderMatches g) =
      selectGender shuffle target order df g :=
  List.filter_eq_self.mpr fun _ ha =>
    mem_selectGender shuffle hsh target order df g ha

/-- A per-gender selection vanishes under the filter for an incompatible
gender. -/
theorem filter_selectGender_other (shuffle : List Row → List Row)
    (hsh : ∀ l, List.Perm (shuffle l) l) (target : ℚ) (order : String)
    (df : List Row) {g gO : String}
    (hexcl : ∀ r : Row,
      ¬(genderMatches gO r = true ∧ genderMatches g r = true)) :
    (selectGender shuffle target order df gO).filter (genderMatches g) = [] := by
  rw [List.filter_eq_nil_iff]
  intro a ha hga
  exact hexcl a ⟨mem_selectGender shuffle hsh target order df gO ha, hga⟩

/-- When the gender subset meets the requirement and the configured order is
one of the two sorts, the selection is a leading segment of the sorted subset,
so the unselected remainder sits entirely on the far side of the sort
relation. -/
theorem selectGender_sorted_decomp (shuffle : List Row → List Row)
    (target : ℚ) (df : List Row) (g : String) (ord : String)
    (rel : Row → Row → Prop) [DecidableRel rel] [IsTotal Row rel]
    [IsTrans Row rel]
    (hord : orderRows shuffle ord (filterGender df g) =
      List.insertionSort rel (filterGender df g))
    (hge : target / 2 ≤ totalDuration (filterGender df g)) :
    ∃ rest,
      List.Perm (filterGender df g)
        (selectGender shuffle target ord df g ++ rest) ∧
      ∀ r ∈ selectGender shuffle target ord df g, ∀ u ∈ rest, rel r u := by
  by_cases h₁ : (filterGender df g).isEmpty
  · refine ⟨[], ?_, by simp [selectGender, h₁]⟩
    rw [List.isEmpty_iff.mp h₁]
    simp [selectGender, h₁]
  · have hsel : selectGender shuffle target ord df g =
        accumulate (target / 2) 0
          (List.insertionSort rel (filterGender df g)) := by
      unfold selectGender
      rw [if_neg h₁, if_neg (not_lt.mpr hge), hord]
    obtain ⟨rest, hrest⟩ := accumulate_append_rest (target / 2) 0
      (List.insertionSort rel (filterGender df g))
    refine ⟨rest, ?_, ?_⟩
    · have hp := (List.perm_insertionSort rel (filterGender df g)).symm
      rw [hrest] at hp
      rw [hsel]
      exact hp
    · have hsorted := List.sorted_insertionSort rel (filterGender df g)
      rw [hrest] at hsorted
      have hpair := List.pairwise_append.mp hsorted
      rw [hsel]
      exact hpair.2.2

/-- The two gender subsets never hold a row more often than the table does. -/
theorem count_filter_both (df : List Row) (a : Row) :
    (filterGender df "male").count a + (filterGender df "female").count a ≤
      df.count a := by
  by_cases hm : genderMatches "male" a = true
  · have hf : ¬genderMatches "female" a = true := fun hf =>
      genders_exclusive a ⟨hm, hf⟩
    rw [filterGender, List.count_filter hm, filterGender,
      List.count_eq_zero.mpr (fun hmem => hf (List.mem_filter.mp hmem).2)]
    omega
  · rw [filterGender,
      List.count_eq_zero.mpr (fun hmem => hm (List.mem_filter.mp hmem).2)]
    by_cases hf : genderMatches "female" a = true
    · rw [filterGender, List.count_filter hf]
      omega
    · rw [filterGender,
        List.count_eq_zero.mpr (fun hmem => hf (List.mem_filter.mp hmem).2)]
      omega

/-- The literal example table of the spec: five male rows with durations 10,
20, 30, 40, 50 and three female rows with durations 5, 15, 25. -/
def exTable : List Row :=
  [⟨"m1", "t", "train", "male", 10⟩, ⟨"m2", "t", "train", "male", 20⟩,
   ⟨"m3", "t", "train", "male", 30⟩, ⟨"m4", "t", "train", "male", 40⟩,
   ⟨"m5", "t", "train", "male", 50⟩, ⟨"f1", "t", "train", "female", 5⟩,
   ⟨"f2", "t", "train", "female", 15⟩, ⟨"f3", "t", "train", "female", 25⟩]

/-- C1 (counterexample): on the literal example with target_duration 100 and
order max, the male row of duration 40 is claimed selected, but the code works
against the effective requirement 100 / 2 = 50, which the single row of
duration 50 already crosses, so the row of duration 40 is not selected. -/
theorem example_selection_target100_max_cex :
    (⟨"m4", "t", "train", "male", 40⟩ : Row) ∉
      select_balanced_by_gender id exTable 100 "max" := by
  simp [select_balanced_by_gender, selectGender, filterGender, genderMatches,
    lowerChar, totalDuration, orderRows, accumulate, exTable,
    List.insertionSort, List.orderedInsert, durAsc, durDesc]
  norm_num

/-- C1 (amended): on the literal example with target_duration 100 and order
max, the Selector picks exactly the male row of duration 50 (its cumulative
sum 50 reaches the effective per-gender requirement 100 / 2 = 50) together
with all three female rows (their total 45 is below 50). -/
theorem example_selection_target100_max :
    select_balanced_by_gender id exTable 100 "max" =
      [⟨"m5", "t", "train", "male", 50⟩, ⟨"f1", "t", "train", "female", 5⟩,
       ⟨"f2", "t", "train", "female", 15⟩,
       ⟨"f3", "t", "train", "female", 25⟩] := by
  simp [select_balanced_by_gender, selectGender, filterGender, genderMatches,
    lowerChar, totalDuration, orderRows, accumulate, exTable,
    List.insertionSort, List.orderedInsert, durAsc, durDesc]
  norm_num

/-- C2: whenever the rows of a gender sum to strictly less than the effective
per-gender requirement, the Selector output restricted to that gender is
exactly the input restricted to that gender, with equal duration sums. -/
theorem selector_select_all_when_insufficient (shuffle : List Row → List Row)
    (hsh : ∀ l, List.Perm (shuffle l) l) (df : List Row) (target : ℚ)
    (order g : String) (hg : g = "male" ∨ g = "female")
    (hlt : totalDuration (filterGender df g) < target / 2) :
    (select_balanced_by_gender shuffle df target order).filter
        (genderMatches g) = filterGender df g ∧
      totalDuration ((select_balanced_by_gender shuffle df target order).filter
        (genderMatches g)) = totalDuration (filterGender df g) := by
  have key : (select_balanced_by_gender shuffle df target order).filter
      (genderMatches g) = filterGender df g := by
    unfold select_balanced_by_gender
    by_cases hb : ((filterGender df "male").isEmpty &&
        (filterGender df "female").isEmpty) = true
    · rw [if_pos hb]
      rfl
    · rw [if_neg hb, List.filter_append]
      rcases hg with hg | hg

      · subst hg
        rw [filter_selectGender_self shuffle hsh target order df "male",
          filter_selectGender_other shuffle hsh target order df
            (fun r h => genders_exclusive r ⟨h.2, h.1⟩),
          List.append_nil,
          selectGender_insufficient shuffle target order df "male" hlt]
      · subst hg
        rw [filter_selectGender_self shuffle hsh target order df "female",
          filter_selectGender_other shuffle hsh target order df
            (fun r h => genders_exclusive r h),
          List.nil_append,
          selectGender_insufficient shuffle target order df "female" hlt]
  exact ⟨key, by rw [key]⟩

/-- C2 witness: on the literal example with target 200, the female rows sum
to 45 which is below 100, so all three female rows are selected. -/
theorem selector_select_all_when_insufficient_witness :
    (select_balanced_by_gender id exTable 200 "max").filter
        (genderMatches "female") = filterGender exTable "female" ∧
      totalDuration ((select_balanced_by_gender id exTable 200 "max").filter
        (genderMatches "female")) =
        totalDuration (filterGender exTable "female") :=
  selector_select_all_when_insufficient id (fun l => List.Perm.refl l) exTable
    200 "max" "female" (Or.inr rfl)
    (by simp [filterGender, genderMatches, lowerChar, totalDuration, exTable]
        norm_num)

/-- C3 (counterexample): with target_duration 0 the effective requirement is
0, which a single male row of duration 5 meets; the accumulation still takes
that first row, and removing it leaves sum 0, which is not strictly below the
requirement 0. -/
theorem selector_minimal_crossing_cex :
    selectGender id 0 "max" [⟨"m1", "t", "train", "male", 5⟩] "male" =
        [⟨"m1", "t", "train", "male", 5⟩] ∧
      (0 : ℚ) / 2 ≤
        totalDuration
          (filterGender [⟨"m1", "t", "train", "male", 5⟩] "male") ∧
      ¬totalDuration ([] : List Row) < (0 : ℚ) / 2 := by
  refine ⟨?_, ?_, ?_⟩
  · simp [selectGender, filterGender, genderMatches, lowerChar, totalDuration,
      orderRows, accumulate, List.insertionSort, List.orderedInsert, durDesc]
  · simp [filterGender, genderMatches, lowerChar, totalDuration]
  · simp

/-- C3 (amended): for a positive target, whenever a gender subset meets the
effective requirement target over two, the accumulated selection for that
gender reaches the requirement and drops strictly below it once its
last-added row is removed. -/
theorem selector_minimal_crossing (shuffle : List Row → List Row)
    (hsh : ∀ l, List.Perm (shuffle l) l) (df : List Row) (target : ℚ)
    (order g : String) (_hg : g = "male" ∨ g = "female") (hpos : 0 < target)
    (hge : target / 2 ≤ totalDuration (filterGender df g)) :
    ∃ pre lastR,
      selectGender shuffle target order df g = pre ++ [lastR] ∧
        target / 2 ≤ totalDuration (pre ++ [lastR]) ∧
        totalDuration pre < target / 2 := by
  have hreq : 0 < target / 2 := by positivity
  have hne : filterGender df g ≠ [] := by
    intro h
    rw [h, totalDuration_nil] at hge
    linarith
  have hic : ¬(filterGender df g).isEmpty = true := fun h =>
    hne (List.isEmpty_iff.mp h)
  have hperm := orderRows_perm shuffle hsh order (filterGender df g)
  have hone : orderRows shuffle order (filterGender df g) ≠ [] := by
    intro h
    rw [h] at hperm
    exact hne hperm.symm.eq_nil
  obtain ⟨pre, lastR, heq, hpre⟩ := accumulate_last (target / 2)
    (orderRows shuffle order (filterGender df g)) 0 hone hreq
  have hreach := accumulate_reaches (target / 2) 0
    (orderRows shuffle order (filterGender df g))
    (by rw [zero_add, totalDuration_perm hperm]; exact hge)
  rw [heq] at hreach
  refine ⟨pre, lastR, ?_, by simpa using hreach, by simpa using hpre⟩
  unfold selectGender
  rw [if_neg hic, if_neg (not_lt.mpr hge), heq]

/-- C3 witness: the amended statement applied to the literal example with
target 100, order max and the male subset of total 150. -/
theorem selector_minimal_crossing_witness :
    ∃ pre lastR,
      selectGender id 100 "max" exTable "male" = pre ++ [lastR] ∧
        (100 : ℚ) / 2 ≤ totalDuration (pre ++ [lastR]) ∧
        totalDuration pre < (100 : ℚ) / 2 :=
  selector_minimal_crossing id (fun l => List.Perm.refl l) exTable 100 "max"
    "male" (Or.inl rfl) (by norm_num)
    (by simp [filterGender, genderMatches, lowerChar, totalDuration, exTable]
        norm_num)

/-- C4: whenever a gender subset meets the effective requirement, the min
order selects rows no longer than every unselected row of that gender, and
the max order selects rows no shorter than every unselected row. -/
theorem selector_min_max_extremal (shuffle : List Row → List Row)
    (df : List Row) (target : ℚ) (g : String)
    (_hg : g = "male" ∨ g = "female")
    (hge : target / 2 ≤ totalDuration (filterGender df g)) :
    (∃ rest,
      List.Perm (filterGender df g)
        (selectGender shuffle target "min" df g ++ rest) ∧
      ∀ r ∈ selectGender shuffle target "min" df g, ∀ u ∈ rest,
        r.duration ≤ u.duration) ∧
    (∃ rest,
      List.Perm (filterGender df g)
        (selectGender shuffle target "max" df g ++ rest) ∧
      ∀ r ∈ selectGender shuffle target "max" df g, ∀ u ∈ rest,
        u.duration ≤ r.duration) := by
  constructor
  · obtain ⟨rest, hp, hrel⟩ := selectGender_sorted_decomp shuffle target df g
      "min" durAsc (orderRows_min shuffle (filterGender df g)) hge
    exact ⟨rest, hp, fun r hr u hu => hrel r hr u hu⟩
  · obtain ⟨rest, hp, hrel⟩ := selectGender_sorted_decomp shuffle target df g
      "max" durDesc (orderRows_max shuffle (filterGender df g)) hge
    exact ⟨rest, hp, fun r hr u hu => hrel r hr u hu⟩

/-- C4 witness: the statement applied to the literal example male subset with
target 100. -/
theorem selector_min_max_extremal_witness :
    (∃ rest,
      List.Perm (filterGender exTable "male")
        (selectGender id 100 "min" exTable "male" ++ rest) ∧
      ∀ r ∈ selectGender id 100 "min" exTable "male", ∀ u ∈ rest,
        r.duration ≤ u.duration) ∧
    (∃ rest,
      List.Perm (filterGender exTable "male")
        (selectGender id 100 "max" exTable "male" ++ rest) ∧
      ∀ r ∈ selectGender id 100 "max" exTable "male", ∀ u ∈ rest,
        u.duration ≤ r.duration) :=
  selector_min_max_extremal id exTable 100 "male" (Or.inl rfl)
    (by simp [filterGender, genderMatches, lowerChar, totalDuration, exTable]
        norm_num)

/-- C5: with order random the Selector is deterministic. The code passes the
fixed seed 42 to the pandas shuffle, which therefore is a pure function of
its input, modelled by the shuffle parameter; two runs over equal inputs with
the same target give equal outputs. -/
theorem selector_random_deterministic (shuffle : List Row → List Row)
    (df₁ df₂ : List Row) (target : ℚ) (h : df₁ = df₂) :
    select_balanced_by_gender shuffle df₁ target "random" =
      select_balanced_by_gender shuffle df₂ target "random" := by
  rw [h]

/-- C5 witness: two runs over the literal example table agree. -/
theorem selector_random_deterministic_witness :
    select_balanced_by_gender id exTable 100 "random" =
      select_balanced_by_gender id exTable 100 "random" :=
  selector_random_deterministic id exTable exTable 100 rfl

/-- A row of a gender outside the two recognised ones. -/
def rowOther : Row := ⟨"o1", "t", "train", "unknown", 7⟩

/-- C6 (counterexample): a table holding only a row of gender unknown takes
the pass-through branch of line 111, so that row appears in the output even
though its gender is neither male nor female. -/
theorem selector_gender_purity_cex :
    rowOther ∈ select_balanced_by_gender id [rowOther] 100 "max" ∧
      genderMatches "male" rowOther = false ∧
      genderMatches "female" rowOther = false := by
  refine ⟨?_, by decide, by decide⟩
  have : select_balanced_by_gender id [rowOther] 100 "max" = [rowOther] := by
    unfold select_balanced_by_gender
    rw [if_pos (by decide)]
  rw [this]
  exact List.mem_cons_self _ _

/-- C6 (amended): the Selector output never uses a row more often than the
input holds it (subset with no duplication), and, provided at least one male
or female row exists so that the pass-through branch of line 111 is not
taken, every output row matches male or female case-insensitively. -/
theorem selector_subset_and_gender (shuffle : List Row → List Row)
    (hsh : ∀ l, List.Perm (shuffle l) l) (df : List Row) (target : ℚ)
    (order : String) :
    (∀ a : Row, (select_balanced_by_gender shuffle df target order).count a ≤
      df.count a) ∧
    ((filterGender df "male" ≠ [] ∨ filterGender df "female" ≠ []) →
      ∀ r ∈ select_balanced_by_gender shuffle df target order,
        genderMatches "male" r = true ∨ genderMatches "female" r = true) := by
  constructor
  · intro a
    unfold select_balanced_by_gender
    by_cases hb : ((filterGender df "male").isEmpty &&
        (filterGender df "female").isEmpty) = true
    · rw [if_pos hb]
    · rw [if_neg hb, List.count_append]
      have h₁ := count_selectGender_le shuffle hsh target order df "male" a
      have h₂ := count_selectGender_le shuffle hsh target order df "female" a
      have h₃ := count_filter_both df a
      omega
  · intro hne r hr
    have hb : ¬((filterGender df "male").isEmpty &&
        (filterGender df "female").isEmpty) = true := by
      rw [Bool.and_eq_true, List.isEmpty_iff, List.isEmpty_iff]
      rintro ⟨h₁, h₂⟩
      rcases hne with h | h
      · exact h h₁
      · exact h h₂
    unfold select_balanced_by_gender at hr
    rw [if_neg hb] at hr
    rcases List.mem_append.mp hr with h | h
    · exact Or.inl (mem_selectGender shuffle hsh target order df "male" h)
    · exact Or.inr (mem_selectGender shuffle hsh target order df "female" h)

/-- C6 witness: the amended statement applied to the literal example. -/
theorem selector_subset_and_gender_witness :
    (∀ a : Row, (select_balanced_by_gender id exTable 100 "max").count a ≤
      exTable.count a) ∧
    ((filterGender exTable "male" ≠ [] ∨ filterGender exTable "female" ≠ []) →
      ∀ r ∈ select_balanced_by_gender id exTable 100 "max",
        genderMatches "male" r = true ∨ genderMatches "female" r = true) :=
  selector_subset_and_gender id (fun l => List.Perm.refl l) exTable 100 "max"

/-- C7: when the table holds no male row and no female row, the selected_rows
list stays empty and line 111 returns the whole input unchanged. -/
theorem selector_passthrough_no_gender_rows (shuffle : List Row → List Row)
    (df : List Row) (target : ℚ) (order : String)
    (hm : filterGender df "male" = []) (hf : filterGender df "female" = []) :
    select_balanced_by_gender shuffle df target order = df := by
  unfold select_balanced_by_gender
  rw [if_pos]
  rw [Bool.and_eq_true, List.isEmpty_iff, List.isEmpty_iff]
  exact ⟨hm, hf⟩

/-- C7 witness: a one-row table of unknown gender passes through whole. -/
theorem selector_passthrough_no_gender_rows_witness :
    select_balanced_by_gender id [rowOther] 100 "min" = [rowOther] :=
  selector_passthrough_no_gender_rows id [rowOther] 100 "min" (by decide)
    (by decide)

/-- The default command line of the list generator. -/
def cfg0 : Config := ⟨"wav_data", "train", "test", "text", none, "random"⟩

/-- C8: a missing metadata CSV, or a missing required column among file_path,
split and the configured text field, makes main print a diagnostic and stop
with a fatal outcome; no train or validation list is produced. -/
theorem main_aborts_on_missing_input (shuffle : List Row → List Row)
    (csv : Option Csv) (cfg : Config)
    (h : csv = none ∨ ∃ t, csv = some t ∧
      ("file_path" ∉ t.columns ∨ "split" ∉ t.columns ∨
        cfg.text_field ∉ t.columns)) :
    (∃ msg, mainRun shuffle csv cfg = MainResult.fatal msg) ∧
    ∀ tl vl, mainRun shuffle csv cfg ≠ MainResult.ok tl vl := by
  have hf : ∃ msg, mainRun shuffle csv cfg = MainResult.fatal msg := by
    rcases h with h | ⟨t, ht, hcol⟩
    · subst h
      exact ⟨_, rfl⟩
    · subst ht
      simp only [mainRun]
      by_cases h₁ : "file_path" ∉ t.columns
      · rw [if_pos h₁]
        exact ⟨_, rfl⟩
      · rw [if_neg h₁]
        by_cases h₂ : "split" ∉ t.columns
        · rw [if_pos h₂]
          exact ⟨_, rfl⟩
        · rw [if_neg h₂]
          have h₃ : cfg.text_field ∉ t.columns := by
            rcases hcol with hc | hc | hc
            · exact absurd hc h₁
            · exact absurd hc h₂
            · exact hc
          rw [if_pos h₃]
          exact ⟨_, rfl⟩
  refine ⟨hf, ?_⟩
  obtain ⟨msg, hmsg⟩ := hf
  intro tl vl hok
  rw [hok] at hmsg
  exact MainResult.noConfusion hmsg

/-- C8 witness: the statement applied to an absent metadata CSV under the
default command line. -/
theorem main_aborts_on_missing_input_witness :
    (∃ msg, mainRun id none cfg0 = MainResult.fatal msg) ∧
    ∀ tl vl, mainRun id none cfg0 ≠ MainResult.ok tl vl :=
  main_aborts_on_missing_input id none cfg0 (Or.inl rfl)

/-- A row whose file path itself holds a pipe character. -/
def rowPipe : Row := ⟨"a|b", "t", "train", "male", 1⟩

/-- A row skipped by the writer for its empty path. -/
def rowEmpty : Row := ⟨"", "x", "train", "male", 1⟩

/-- A well-formed row for the writer. -/
def rowGood : Row := ⟨"wav/g.wav", " hello ", "train", "Male", 2⟩

/-- C9 (counterexample): a row whose transcript is pipe-free but whose file
path holds a pipe is emitted as a line of three pipe-separated fields, not
two. -/
theorem writer_two_fields_cex :
    '|' ∉ "t".data ∧
      lineFor "w" rowPipe ∈ writeListLines "w" [rowPipe] ∧
      (splitPipe (lineFor "w" rowPipe)).length = 3 := by
  decide

/-- C9 (amended): the writer emits no line for a row with an empty file_path,
and every emitted line splits into exactly two pipe-separated fields provided
the transcript and also the file path hold no embedded pipe character. -/
theorem writer_skip_empty_and_two_fields (root : String) (rows : List Row)
    (hp : ∀ r ∈ rows, '|' ∉ r.file_path.data ∧ '|' ∉ r.text.data) :
    writeListLines root rows =
      writeListLines root (rows.filter (fun r => !(r.file_path == ""))) ∧
    ∀ line ∈ writeListLines root rows, (splitPipe line).length = 2 := by
  constructor
  · rw [writeListLines_eq_map, writeListLines_eq_map, List.filter_filter]
    exact congrArg _ (List.filter_congr fun x _ => (Bool.and_self _).symm)
  · intro line hline
    rw [writeListLines_eq_map] at hline
    obtain ⟨r, hrf, rfl⟩ := List.mem_map.mp hline
    obtain ⟨hfp, htx⟩ := hp r (List.mem_of_mem_filter hrf)
    have h₁ : '|' ∉ relPathChars root.data r.file_path.data := fun hmem =>
      hfp (mem_relPathChars hmem)
    have h₂ : '|' ∉ trimChars r.text.data := fun hmem =>
      htx (mem_trimChars hmem)
    rw [lineFor, splitPipe_line h₁ h₂]
    rfl

/-- C9 witness: the statement applied to a two-row table with one empty-path
row and one clean row. -/
theorem writer_skip_empty_and_two_fields_witness :
    (writeListLines "wav" [rowEmpty, rowGood] =
      writeListLines "wav" ([rowEmpty, rowGood].filter
        (fun r => !(r.file_path == "")))) ∧
    ∀ line ∈ writeListLines "wav" [rowEmpty, rowGood],
      (splitPipe line).length = 2 :=
  writer_skip_empty_and_two_fields "wav" [rowEmpty, rowGood] (by decide)

/-- C10 (code bug): on a table of two rows of which one has an empty
file_path, the writer emits one line yet reports two entries written, since
line 57 prints the length of the whole frame instead of the number of rows
actually emitted. -/
theorem writer_report_mismatch :
    writeListReport [rowEmpty, rowGood] = 2 ∧
      (writeListLines "wav" [rowEmpty, rowGood]).length = 1 := by
  decide

end StyleTTS2
